import Mathlib

/-!
Shallow embedding of `src/main.rs` of the `rustlike` repository: the tile-map
generator (`new_map`, `xy_idx`), the entity store contents, the `LeftWalker`
movement system, the player input handler (`player_input`, `try_move_player`),
the per-frame `tick`, and the initial world built in `main`.

Machine integers: all coordinate arithmetic in the source is on `i32` values
that stay far inside the `i32` range, so coordinates are embedded as `Int`
(signedness matters: the left-walker tests `pos.x < 0`). Grid indices are
`usize` values produced from non-negative coordinates, embedded as `Nat`.

The library pseudo-random source (`rltk::RandomNumberGenerator`) is embedded
by a stream `rolls : Nat → Nat` of raw draws; `roll_dice r die` maps a raw
draw to the value of one die roll, a value in `[1, die]`, exactly the range of
the library call `roll_dice(1, die)`. Quantifying over all `rolls` covers
every possible outcome of the source.

The library entity-component store (`specs::World`) is embedded as a list of
entities, each holding its optional `Position` and `Renderable` fragments and
the two zero-size tags as booleans; the store's join over fragment kinds
becomes a per-entity conditional update. Colors (`rltk::RGB`, a float triple
never inspected by the program logic) are embedded symbolically. The glyph of
the mover entities is a mangled character literal in the source; its value is
never inspected, it is embedded as an arbitrary code point.
-/

/-- Tile kinds of the map, from `enum TileType`. -/
inductive TileType where
  | Wall
  | Floor
  deriving DecidableEq

open TileType

/-- Grid index function, from `pub fn xy_idx`: `(y as usize * 80) + x as usize`.
Embedded on `Nat`; every call site in the program passes non-negative
coordinates. -/
def xy_idx (x y : Nat) : Nat := y * 80 + x

/-- One roll of the library pseudo-random source, `rng.roll_dice(1, die)`:
given the raw draw `r`, the result is some value in `[1, die]`; as `r` ranges
over `Nat` the result ranges over exactly `[1, die]`. -/
def roll_dice (r die : Nat) : Nat := 1 + r % die

/-- The x coordinate rolled by trial `i` of `new_map`: `rng.roll_dice(1, 79)`. -/
def trial_x (rolls : Nat → Nat) (i : Nat) : Nat := roll_dice (rolls (2 * i)) 79

/-- The y coordinate rolled by trial `i` of `new_map`: `rng.roll_dice(1, 49)`. -/
def trial_y (rolls : Nat → Nat) (i : Nat) : Nat := roll_dice (rolls (2 * i + 1)) 49

/-- The wall-placement loop of `new_map` (`for _i in 0..400`), over an explicit
list of trial numbers: roll `x` and `y`, and set the tile at `xy_idx x y` to
`Wall` unless that index equals `xy_idx 40 25`. -/
def place_walls (rolls : Nat → Nat) (l : List Nat) (m : List TileType) : List TileType :=
  l.foldl (fun m i =>
    let x := trial_x rolls i
    let y := trial_y rolls i
    let idx := xy_idx x y
    if idx ≠ xy_idx 40 25 then m.set idx Wall else m) m

/-- The first border loop of `new_map` (`for x in 0..80`): wall the top and
bottom rows. -/
def set_border_rows (m : List TileType) : List TileType :=
  (List.range 80).foldl (fun m x => (m.set (xy_idx x 0) Wall).set (xy_idx x 49) Wall) m

/-- The second border loop of `new_map` (`for y in 0..50`): wall the left and
right columns. -/
def set_border_cols (m : List TileType) : List TileType :=
  (List.range 50).foldl (fun m y => (m.set (xy_idx 0 y) Wall).set (xy_idx 79 y) Wall) m

/-- `fn new_map`: start from `vec![TileType::Floor; 80 * 50]`, wall the
border rows then the border columns, then run the 400 random wall trials. -/
def new_map (rolls : Nat → Nat) : List TileType :=
  place_walls rolls (List.range 400)
    (set_border_cols (set_border_rows (List.replicate (80 * 50) Floor)))

/-- The tile stored at cell `(x, y)` of a map, read through `xy_idx`. -/
def tile_at (m : List TileType) (x y : Nat) : TileType := m.getD (xy_idx x y) Floor

/-- `struct Position { x: i32, y: i32 }`. -/
structure Position where
  x : Int
  y : Int
  deriving DecidableEq

/-- Symbolic embedding of the `rltk::RGB` color values used by the program. -/
inductive Color where
  | yellow
  | red
  | black
  deriving DecidableEq

/-- `struct Renderable { glyph, fg, bg }`. -/
structure Renderable where
  glyph : Nat
  fg : Color
  bg : Color
  deriving DecidableEq

/-- One entity of the store: its optional fragments and its zero-size tags
(`Player {}`, `LeftMover {}`) as booleans recording attachment. -/
structure Entity where
  position : Option Position
  renderable : Option Renderable
  player : Bool
  leftMover : Bool
  deriving DecidableEq

/-- The entity store contents of `specs::World`, as the list of entities in
creation order. -/
abbrev World := List Entity

/-- Effect of the body of `LeftWalker::run` on one entity: the join of
`(&lefty, &mut pos)` touches exactly the entities holding both the `LeftMover`
tag and a `Position`; for those, `pos.x -= 1; if pos.x < 0 { pos.x = 79; }`. -/
def leftWalkerStep (e : Entity) : Entity :=
  if e.leftMover then
    match e.position with
    | some p =>
        let x := p.x - 1
        { e with position := some { x := if x < 0 then 79 else x, y := p.y } }
    | none => e
  else e

/-- `LeftWalker::run`: apply the walker update across the store. -/
def LeftWalker.run (w : World) : World := w.map leftWalkerStep

/-- Effect of the body of `try_move_player` on one entity: the join of
`(&mut players, &mut positions)` touches exactly the entities holding both the
`Player` tag and a `Position`; for those,
`pos.x = min(79, max(0, pos.x + delta_x)); pos.y = min(49, max(0, pos.y + delta_y))`. -/
def movePlayerStep (dx dy : Int) (e : Entity) : Entity :=
  if e.player then
    match e.position with
    | some p =>
        { e with position := some { x := min 79 (max 0 (p.x + dx)), y := min 49 (max 0 (p.y + dy)) } }
    | none => e
  else e

/-- `fn try_move_player`: apply the clamped delta across the store. -/
def try_move_player (dx dy : Int) (w : World) : World := w.map (movePlayerStep dx dy)

/-- The key codes matched by `player_input`; every key code the source matches
with the wildcard arm `_` is embedded as `Other`. -/
inductive VirtualKeyCode where
  | H
  | L
  | K
  | J
  | Left
  | Right
  | Up
  | Down
  | Other
  deriving DecidableEq

/-- `fn player_input`: `ctx.key` is the at-most-one captured key of the frame;
`None` and unrecognized keys leave the store untouched, the eight recognized
keys dispatch to `try_move_player` with their directional delta. -/
def player_input (key : Option VirtualKeyCode) (w : World) : World :=
  match key with
  | none => w
  | some k =>
    match k with
    | VirtualKeyCode.H => try_move_player (-1) 0 w
    | VirtualKeyCode.L => try_move_player 1 0 w
    | VirtualKeyCode.K => try_move_player 0 (-1) w
    | VirtualKeyCode.J => try_move_player 0 1 w
    | VirtualKeyCode.Left => try_move_player (-1) 0 w
    | VirtualKeyCode.Right => try_move_player 1 0 w
    | VirtualKeyCode.Up => try_move_player 0 (-1) w
    | VirtualKeyCode.Down => try_move_player 0 1 w
    | VirtualKeyCode.Other => w

/-- `self.ecs.maintain()`: applies pending structural changes; this program
never queues any, so on the store contents it is the identity. -/
def maintain (w : World) : World := w

/-- `State::run_systems`: run the `LeftWalker` system, then `maintain`. -/
def run_systems (w : World) : World := maintain (LeftWalker.run w)

/-- Effect of one `State::tick` on the entity store: `ctx.cls()` and the draw
pass only read the store, so the store update is `player_input` followed by
`run_systems`. -/
def tick (key : Option VirtualKeyCode) (w : World) : World :=
  run_systems (player_input key w)

/-- The player entity built in `main`: position `(40, 25)`, glyph `@`
(code 64), yellow on black, `Player` tag. -/
def player_entity : Entity :=
  { position := some { x := 40, y := 25 },
    renderable := some { glyph := 64, fg := Color.yellow, bg := Color.black },
    player := true,
    leftMover := false }

/-- The `i`-th mover entity built in `main`: position `(i * 7, 20)`, red on
black, `LeftMover` tag. -/
def mover_entity (i : Nat) : Entity :=
  { position := some { x := (i : Int) * 7, y := 20 },
    renderable := some { glyph := 1, fg := Color.red, bg := Color.black },
    player := false,
    leftMover := true }

/-- The store contents after `main`'s setup: one player entity, then ten mover
entities for `i in 0..10`. -/
def initial_world : World :=
  player_entity :: (List.range 10).map mover_entity

/-- A sample mover entity for concrete instances of the system theorems. -/
def sample_mover : Entity :=
  { position := some { x := 0, y := 20 }, renderable := none, player := false, leftMover := true }

/-- A sample player entity for concrete instances of the system theorems. -/
def sample_player : Entity :=
  { position := some { x := 40, y := 25 }, renderable := none, player := true, leftMover := false }

/-- Writing a `Wall` never un-walls a cell: `getD` at any index stays `Wall`. -/
theorem getD_set_wall (m : List TileType) (i j : Nat) (h : m.getD j Floor = Wall) :
    (m.set i Wall).getD j Floor = Wall := by
  rw [List.getD_eq_getElem?_getD] at h ⊢
  by_cases hij : i = j
  · subst hij
    by_cases hlt : i < m.length
    · rw [List.getElem?_set_eq_of_lt Wall hlt]
      rfl
    · rw [List.getElem?_eq_none (Nat.le_of_not_lt hlt)] at h
      simp at h
  · rw [List.getElem?_set_ne hij]
    exact h

/-- A write at a different index leaves `getD` unchanged. -/
theorem getD_set_other (m : List TileType) (i j : Nat) (a : TileType) (h : i ≠ j) :
    (m.set i a).getD j Floor = m.getD j Floor := by
  rw [List.getD_eq_getElem?_getD, List.getElem?_set_ne h, ← List.getD_eq_getElem?_getD]

/-- An in-range write is read back by `getD`. -/
theorem getD_set_self_of_lt (m : List TileType) (i : Nat) (h : i < m.length) :
    (m.set i Wall).getD i Floor = Wall := by
  rw [List.getD_eq_getElem?_getD, List.getElem?_set_eq_of_lt Wall h]
  rfl

/-- A fold whose every step preserves wallness at `j` preserves wallness at `j`. -/
theorem foldl_wall_pres {α : Type} (f : List TileType → α → List TileType)
    (hf : ∀ m a j, m.getD j Floor = Wall → (f m a).getD j Floor = Wall)
    (l : List α) (m : List TileType) (j : Nat) (h : m.getD j Floor = Wall) :
    (l.foldl f m).getD j Floor = Wall := by
  induction l generalizing m with
  | nil => exact h
  | cons a t ih => exact ih (f m a) (hf m a j h)

/-- A fold whose every step (for elements of the list) leaves `getD` at `j`
unchanged leaves it unchanged. -/
theorem foldl_getD_pres {α : Type} (f : List TileType → α → List TileType) (j : Nat)
    (d : TileType) (l : List α) (hf : ∀ m a, a ∈ l → (f m a).getD j d = m.getD j d)
    (m : List TileType) : (l.foldl f m).getD j d = m.getD j d := by
  induction l generalizing m with
  | nil => rfl
  | cons a t ih =>
      rw [List.foldl_cons, ih (fun m b hb => hf m b (List.mem_cons_of_mem a hb)) (f m a),
        hf m a (List.mem_cons_self a t)]

/-- A fold whose every step preserves the length preserves the length. -/
theorem foldl_length_pres {α : Type} (f : List TileType → α → List TileType)
    (hf : ∀ m a, (f m a).length = m.length) (l : List α) (m : List TileType) :
    (l.foldl f m).length = m.length := by
  induction l generalizing m with
  | nil => rfl
  | cons a t ih => rw [List.foldl_cons, ih (f m a), hf]

/-- A fold over a length-4000-preserving, wall-preserving step function, whose
step at some member `a` of the list unconditionally walls index `j`, walls
index `j`. -/
theorem foldl_wall_est {α : Type} (f : List TileType → α → List TileType)
    (hpres : ∀ m a j, m.getD j Floor = Wall → (f m a).getD j Floor = Wall)
    (hlen : ∀ m a, (f m a).length = m.length) (l : List α) (a : α) (ha : a ∈ l) (j : Nat)
    (hstep : ∀ m, m.length = 4000 → (f m a).getD j Floor = Wall)
    (m : List TileType) (hm : m.length = 4000) :
    (l.foldl f m).getD j Floor = Wall := by
  induction l generalizing m with
  | nil => cases ha
  | cons b t ih =>
      rw [List.foldl_cons]
      rcases List.mem_cons.mp ha with hab | hat
      · subst hab
        exact foldl_wall_pres f hpres t (f m a) j (hstep m hm)
      · exact ih hat (f m b) (by rw [hlen]; exact hm)

/-- `getD` on the all-floor initial vector is `Floor` everywhere. -/
theorem getD_replicate_floor (n j : Nat) : (List.replicate n Floor).getD j Floor = Floor := by
  rw [List.getD_eq_getElem?_getD, List.getElem?_replicate]
  split <;> rfl

/-- The row-border loop preserves the map length. -/
theorem length_set_border_rows (m : List TileType) : (set_border_rows m).length = m.length := by
  unfold set_border_rows
  exact foldl_length_pres _ (fun m a => by simp) _ m

/-- The column-border loop preserves the map length. -/
theorem length_set_border_cols (m : List TileType) : (set_border_cols m).length = m.length := by
  unfold set_border_cols
  exact foldl_length_pres _ (fun m a => by simp) _ m

/-- The wall-placement loop preserves the map length. -/
theorem length_place_walls (rolls : Nat → Nat) (l : List Nat) (m : List TileType) :
    (place_walls rolls l m).length = m.length := by
  unfold place_walls
  refine foldl_length_pres _ (fun m i => ?_) l m
  dsimp only
  split
  · simp
  · rfl

/-- After the two border loops on the all-floor vector, every border cell
holds `Wall`. -/
theorem border_wall (x y : Nat) (hx : x < 80) (hy : y < 50)
    (hb : x = 0 ∨ x = 79 ∨ y = 0 ∨ y = 49) :
    (set_border_cols (set_border_rows (List.replicate (80 * 50) Floor))).getD (xy_idx x y) Floor
      = Wall := by
  have hrepl : (List.replicate (80 * 50) Floor).length = 4000 := by
    rw [List.length_replicate]
  have hrowlen : (set_border_rows (List.replicate (80 * 50) Floor)).length = 4000 := by
    rw [length_set_border_rows, hrepl]
  have hpres_cols : ∀ (m : List TileType) (a j : Nat), m.getD j Floor = Wall →
      ((m.set (xy_idx 0 a) Wall).set (xy_idx 79 a) Wall).getD j Floor = Wall :=
    fun m a j h => getD_set_wall _ _ _ (getD_set_wall _ _ _ h)
  have hpres_rows : ∀ (m : List TileType) (a j : Nat), m.getD j Floor = Wall →
      ((m.set (xy_idx a 0) Wall).set (xy_idx a 49) Wall).getD j Floor = Wall :=
    fun m a j h => getD_set_wall _ _ _ (getD_set_wall _ _ _ h)
  rcases hb with h0 | h79 | hy0 | hy49
  · subst h0
    unfold set_border_cols
    refine foldl_wall_est _ hpres_cols (fun m a => by simp) _ y
      (List.mem_range.mpr hy) (xy_idx 0 y) (fun m hm => ?_) _ hrowlen
    rw [getD_set_other _ _ _ _ (by unfold xy_idx; omega)]
    refine getD_set_self_of_lt _ _ ?_
    rw [hm]
    unfold xy_idx
    omega
  · subst h79
    unfold set_border_cols
    refine foldl_wall_est _ hpres_cols (fun m a => by simp) _ y
      (List.mem_range.mpr hy) (xy_idx 79 y) (fun m hm => ?_) _ hrowlen
    refine getD_set_self_of_lt _ _ ?_
    rw [List.length_set, hm]
    unfold xy_idx
    omega
  · subst hy0
    unfold set_border_cols
    refine foldl_wall_pres _ hpres_cols _ _ _ ?_
    unfold set_border_rows
    refine foldl_wall_est _ hpres_rows (fun m a => by simp) _ x
      (List.mem_range.mpr hx) (xy_idx x 0) (fun m hm => ?_) _ hrepl
    rw [getD_set_other _ _ _ _ (by unfold xy_idx; omega)]
    refine getD_set_self_of_lt _ _ ?_
    rw [hm]
    unfold xy_idx
    omega
  · subst hy49
    unfold set_border_rows
    rw [show set_border_cols ((List.range 80).foldl
        (fun m x => (m.set (xy_idx x 0) Wall).set (xy_idx x 49) Wall)
        (List.replicate (80 * 50) Floor)) = set_border_cols (set_border_rows
        (List.replicate (80 * 50) Floor)) from rfl]
    unfold set_border_cols
    refine foldl_wall_pres _ hpres_cols _ _ _ ?_
    unfold set_border_rows
    refine foldl_wall_est _ hpres_rows (fun m a => by simp) _ x
      (List.mem_range.mpr hx) (xy_idx x 49) (fun m hm => ?_) _ hrepl
    refine getD_set_self_of_lt _ _ ?_
    rw [List.length_set, hm]
    unfold xy_idx
    omega

/-- The wall trials never change the tile read at the spawn index
`xy_idx 40 25`: a trial that rolls that index is skipped. -/
theorem place_walls_getD_spawn (rolls : Nat → Nat) (l : List Nat) (m : List TileType) :
    (place_walls rolls l m).getD (xy_idx 40 25) Floor = m.getD (xy_idx 40 25) Floor := by
  unfold place_walls
  refine foldl_getD_pres _ _ _ _ (fun m i _ => ?_) m
  dsimp only
  split
  case isTrue hne => exact getD_set_other _ _ _ _ hne
  case isFalse => rfl

/-- The row-border loop never writes at the spawn index. -/
theorem rows_getD_spawn (m : List TileType) :
    (set_border_rows m).getD (xy_idx 40 25) Floor = m.getD (xy_idx 40 25) Floor := by
  unfold set_border_rows
  refine foldl_getD_pres _ _ _ _ (fun m a ha => ?_) m
  have hx : a < 80 := List.mem_range.mp ha
  rw [getD_set_other _ _ _ _ (by unfold xy_idx; omega),
    getD_set_other _ _ _ _ (by unfold xy_idx; omega)]

/-- The column-border loop never writes at the spawn index. -/
theorem cols_getD_spawn (m : List TileType) :
    (set_border_cols m).getD (xy_idx 40 25) Floor = m.getD (xy_idx 40 25) Floor := by
  unfold set_border_cols
  refine foldl_getD_pres _ _ _ _ (fun m a ha => ?_) m
  have hy : a < 50 := List.mem_range.mp ha
  rw [getD_set_other _ _ _ _ (by unfold xy_idx; omega),
    getD_set_other _ _ _ _ (by unfold xy_idx; omega)]

/-- C6: on the domain 0 ≤ x < 80, 0 ≤ y < 50 the grid index function `xy_idx`
is total into [0, 4000), injective, and surjective onto [0, 4000). -/
theorem xy_idx_grid_bijection :
    (∀ x y : Nat, x < 80 → y < 50 → xy_idx x y < 4000) ∧
    (∀ x y a b : Nat, x < 80 → y < 50 → a < 80 → b < 50 →
      xy_idx x y = xy_idx a b → x = a ∧ y = b) ∧
    (∀ k : Nat, k < 4000 → ∃ x y : Nat, x < 80 ∧ y < 50 ∧ xy_idx x y = k) := by
  refine ⟨?_, ?_, ?_⟩
  · intro x y hx hy
    unfold xy_idx
    omega
  · intro x y a b hx hy ha hb h
    unfold xy_idx at h
    omega
  · intro k hk
    exact ⟨k % 80, k / 80, by omega, by omega, by unfold xy_idx; omega⟩

/-- Witness for C6 at the last cell (79, 49). -/
theorem xy_idx_grid_bijection_witness : xy_idx 79 49 < 4000 :=
  xy_idx_grid_bijection.1 79 49 (by decide) (by decide)

/-- C3 counterexample: when every raw draw is 78, trial 0 rolls x = 79, a cell
on the right border column, not an interior cell with x ≤ 78. -/
theorem trial_zero_hits_border :
    trial_x (fun _ => 78) 0 = 79 ∧ ¬ trial_x (fun _ => 78) 0 ≤ 78 := by
  decide

/-- C3 amended: every wall-placement trial targets a cell with x in [1, 79]
and y in [1, 49] — never the left column or top row, but possibly the right
column (x = 79) or bottom row (y = 49), which the border loops already set to
`Wall`. -/
theorem trial_targets_range (rolls : Nat → Nat) (i : Nat) :
    1 ≤ trial_x rolls i ∧ trial_x rolls i ≤ 79 ∧
    1 ≤ trial_y rolls i ∧ trial_y rolls i ≤ 49 := by
  unfold trial_x trial_y roll_dice
  omega

/-- C4: `new_map` returns exactly 4000 tiles and, for every outcome of the
pseudo-random source, every perimeter cell of the 80×50 grid is `Wall`. -/
theorem new_map_length_and_border_wall (rolls : Nat → Nat) :
    (new_map rolls).length = 4000 ∧
    ∀ x y : Nat, x < 80 → y < 50 → (x = 0 ∨ x = 79 ∨ y = 0 ∨ y = 49) →
      tile_at (new_map rolls) x y = Wall := by
  constructor
  · unfold new_map
    rw [length_place_walls, length_set_border_cols, length_set_border_rows,
      List.length_replicate]
  · intro x y hx hy hb
    unfold tile_at new_map place_walls
    refine foldl_wall_pres _ (fun m i j h => ?_) _ _ _ (border_wall x y hx hy hb)
    dsimp only
    split
    case isTrue => exact getD_set_wall _ _ _ h
    case isFalse => exact h

/-- Witness for C4 with the all-zero draw stream at the corner cell (0, 0). -/
theorem new_map_length_and_border_wall_witness :
    (new_map (fun _ => 0)).length = 4000 ∧ tile_at (new_map (fun _ => 0)) 0 0 = Wall :=
  ⟨(new_map_length_and_border_wall (fun _ => 0)).1,
    (new_map_length_and_border_wall (fun _ => 0)).2 0 0 (by decide) (by decide) (Or.inl rfl)⟩

/-- C5: for every outcome of the pseudo-random source, the tile at the spawn
cell (40, 25) of the generated map is `Floor`. -/
theorem new_map_spawn_floor (rolls : Nat → Nat) :
    tile_at (new_map rolls) 40 25 = Floor := by
  unfold tile_at new_map
  rw [place_walls_getD_spawn, cols_getD_spawn, rows_getD_spawn, getD_replicate_floor]

/-- C1: one `LeftWalker` run sends every entity holding the `LeftMover` tag
and a position with x in [0, 79] to x − 1, except that x = 0 wraps to 79; its
y coordinate is unchanged. -/
theorem leftwalker_moves_left (w : World) (i : Nat) (e : Entity) (p : Position)
    (he : w[i]? = some e) (hl : e.leftMover = true) (hp : e.position = some p)
    (hx0 : 0 ≤ p.x) (hx79 : p.x ≤ 79) :
    (LeftWalker.run w)[i]? =
      some { e with position := some { x := if p.x = 0 then 79 else p.x - 1, y := p.y } } := by
  unfold LeftWalker.run
  rw [List.getElem?_map, he, Option.map_some']
  have hstep : leftWalkerStep e =
      { e with position := some { x := if p.x = 0 then 79 else p.x - 1, y := p.y } } := by
    unfold leftWalkerStep
    rw [hl, hp]
    by_cases hz : p.x = 0
    · simp [hz]
    · have hneg : ¬ p.x - 1 < 0 := by omega
      simp [hz, hneg]
  rw [hstep]

/-- Witness for C1: a lone mover at (0, 20) wraps to (79, 20). -/
theorem leftwalker_moves_left_witness :
    (LeftWalker.run [sample_mover])[0]? =
      some { position := some { x := 79, y := 20 }, renderable := none, player := false,
             leftMover := true } := by
  have h := leftwalker_moves_left [sample_mover] 0 sample_mover
    { x := 0, y := 20 } rfl rfl rfl (by decide) (by decide)
  exact h.trans (by decide)

/-- C2: `try_move_player` with delta (dx, dy) sends every entity holding the
`Player` tag and a position to the clamped target
(min 79 (max 0 (x + dx)), min 49 (max 0 (y + dy))). -/
theorem try_move_player_clamps (dx dy : Int) (w : World) (i : Nat) (e : Entity) (p : Position)
    (he : w[i]? = some e) (hpl : e.player = true) (hp : e.position = some p) :
    (try_move_player dx dy w)[i]? =
      some { e with position := some { x := min 79 (max 0 (p.x + dx)), y := min 49 (max 0 (p.y + dy)) } } := by
  unfold try_move_player
  rw [List.getElem?_map, he, Option.map_some']
  have hstep : movePlayerStep dx dy e =
      { e with position := some { x := min 79 (max 0 (p.x + dx)), y := min 49 (max 0 (p.y + dy)) } } := by
    unfold movePlayerStep
    rw [hpl, hp]
    simp
  rw [hstep]

/-- Witness for C2: the player at (40, 25) with delta (0, −1) moves to
(40, 24). -/
theorem try_move_player_clamps_witness :
    (try_move_player 0 (-1) [sample_player])[0]? =
      some { position := some { x := 40, y := 24 }, renderable := none, player := true,
             leftMover := false } := by
  have h := try_move_player_clamps 0 (-1) [sample_player] 0 sample_player
    { x := 40, y := 25 } rfl rfl rfl
  exact h.trans (by decide)

/-- C7: `player_input` maps H/Left to delta (−1, 0), L/Right to (+1, 0),
K/Up to (0, −1), J/Down to (0, +1), each applied through `try_move_player`,
and is the identity on the store for no key or any other key. -/
theorem player_input_key_mapping (w : World) :
    player_input none w = w ∧
    player_input (some VirtualKeyCode.H) w = try_move_player (-1) 0 w ∧
    player_input (some VirtualKeyCode.Left) w = try_move_player (-1) 0 w ∧
    player_input (some VirtualKeyCode.L) w = try_move_player 1 0 w ∧
    player_input (some VirtualKeyCode.Right) w = try_move_player 1 0 w ∧
    player_input (some VirtualKeyCode.K) w = try_move_player 0 (-1) w ∧
    player_input (some VirtualKeyCode.Up) w = try_move_player 0 (-1) w ∧
    player_input (some VirtualKeyCode.J) w = try_move_player 0 1 w ∧
    player_input (some VirtualKeyCode.Down) w = try_move_player 0 1 w ∧
    player_input (some VirtualKeyCode.Other) w = w :=
  ⟨rfl, rfl, rfl, rfl, rfl, rfl, rfl, rfl, rfl, rfl⟩

/-- C9: whatever position a player entity started from, even outside the
grid, after `try_move_player` its position lies inside [0, 79] × [0, 49]. -/
theorem try_move_player_in_bounds (dx dy : Int) (w : World) (i : Nat) (e : Entity)
    (p : Position) (he : (try_move_player dx dy w)[i]? = some e) (hpl : e.player = true)
    (hp : e.position = some p) :
    0 ≤ p.x ∧ p.x ≤ 79 ∧ 0 ≤ p.y ∧ p.y ≤ 49 := by
  unfold try_move_player at he
  rw [List.getElem?_map] at he
  cases hw : w[i]? with
  | none =>
      rw [hw] at he
      cases he
  | some e0 =>
      rw [hw, Option.map_some'] at he
      have he2 : movePlayerStep dx dy e0 = e := Option.some.inj he
      unfold movePlayerStep at he2
      cases hpe : e0.player with
      | false =>
          rw [hpe] at he2
          simp at he2
          subst he2
          rw [hpe] at hpl
          cases hpl
      | true =>
          rw [hpe] at he2
          cases hpos : e0.position with
          | none =>
              rw [hpos] at he2
              simp at he2
              subst he2
              rw [hpos] at hp
              cases hp
          | some p0 =>
              rw [hpos] at he2
              simp only [if_true] at he2
              subst he2
              simp only [Entity.position] at hp
              have hpp := Option.some.inj hp
              have hx : p.x = min 79 (max 0 (p0.x + dx)) := by rw [← hpp]
              have hy : p.y = min 49 (max 0 (p0.y + dy)) := by rw [← hpp]
              rw [hx, hy]
              omega

/-- Witness for C9: a player that starts outside the grid at (100, −5) is
clamped back to (79, 0), inside bounds. -/
theorem try_move_player_in_bounds_witness :
    (0:Int) ≤ 79 ∧ (79:Int) ≤ 79 ∧ (0:Int) ≤ 0 ∧ (0:Int) ≤ 49 :=
  try_move_player_in_bounds 1 0
    [{ position := some { x := 100, y := -5 }, renderable := none, player := true, leftMover := false }]
    0
    { position := some { x := 79, y := 0 }, renderable := none, player := true, leftMover := false }
    { x := 79, y := 0 } (by decide) rfl rfl

/-- The left-walker step keeps every y coordinate, renderable and tag. -/
theorem leftWalkerStep_skeleton (e : Entity) :
    (leftWalkerStep e).position.map Position.y = e.position.map Position.y ∧
    (leftWalkerStep e).renderable = e.renderable ∧
    (leftWalkerStep e).player = e.player ∧
    (leftWalkerStep e).leftMover = e.leftMover := by
  unfold leftWalkerStep
  cases hl : e.leftMover with
  | false => simp [hl]
  | true =>
      cases hpos : e.position with
      | none => simp [hl, hpos]
      | some p => simp [hl, hpos]

/-- The left-walker step is the identity on entities without the tag. -/
theorem leftWalkerStep_no_tag (e : Entity) (h : e.leftMover = false) : leftWalkerStep e = e := by
  unfold leftWalkerStep
  rw [h]
  simp

/-- The player-move step keeps every renderable and tag. -/
theorem movePlayerStep_skeleton (dx dy : Int) (e : Entity) :
    (movePlayerStep dx dy e).renderable = e.renderable ∧
    (movePlayerStep dx dy e).player = e.player ∧
    (movePlayerStep dx dy e).leftMover = e.leftMover := by
  unfold movePlayerStep
  cases hp : e.player with
  | false => simp [hp]
  | true =>
      cases hpos : e.position with
      | none => simp [hp, hpos]
      | some p => simp [hp, hpos]

/-- The player-move step is the identity on entities without the tag. -/
theorem movePlayerStep_no_tag (dx dy : Int) (e : Entity) (h : e.player = false) :
    movePlayerStep dx dy e = e := by
  unfold movePlayerStep
  rw [h]
  simp

/-- C10: a `LeftWalker` run leaves every entity without the `LeftMover` tag
unchanged and changes no entity's y coordinate, renderable, or tags;
`try_move_player` leaves every entity without the `Player` tag unchanged and
changes no entity's renderable or tags. -/
theorem systems_frame_effects :
    (∀ (w : World) (i : Nat) (e : Entity), w[i]? = some e → e.leftMover = false →
      (LeftWalker.run w)[i]? = some e) ∧
    (∀ (w : World) (i : Nat) (e : Entity), w[i]? = some e →
      ∃ e2 : Entity, (LeftWalker.run w)[i]? = some e2 ∧
        e2.position.map Position.y = e.position.map Position.y ∧
        e2.renderable = e.renderable ∧ e2.player = e.player ∧ e2.leftMover = e.leftMover) ∧
    (∀ (dx dy : Int) (w : World) (i : Nat) (e : Entity), w[i]? = some e → e.player = false →
      (try_move_player dx dy w)[i]? = some e) ∧
    (∀ (dx dy : Int) (w : World) (i : Nat) (e : Entity), w[i]? = some e →
      ∃ e2 : Entity, (try_move_player dx dy w)[i]? = some e2 ∧
        e2.renderable = e.renderable ∧ e2.player = e.player ∧ e2.leftMover = e.leftMover) := by
  refine ⟨?_, ?_, ?_, ?_⟩
  · intro w i e he hl
    unfold LeftWalker.run
    rw [List.getElem?_map, he, Option.map_some', leftWalkerStep_no_tag e hl]
  · intro w i e he
    unfold LeftWalker.run
    rw [List.getElem?_map, he, Option.map_some']
    exact ⟨leftWalkerStep e, rfl, (leftWalkerStep_skeleton e).1, (leftWalkerStep_skeleton e).2.1,
      (leftWalkerStep_skeleton e).2.2.1, (leftWalkerStep_skeleton e).2.2.2⟩
  · intro dx dy w i e he hp
    unfold try_move_player
    rw [List.getElem?_map, he, Option.map_some', movePlayerStep_no_tag dx dy e hp]
  · intro dx dy w i e he
    unfold try_move_player
    rw [List.getElem?_map, he, Option.map_some']
    exact ⟨movePlayerStep dx dy e, rfl, (movePlayerStep_skeleton dx dy e).1,
      (movePlayerStep_skeleton dx dy e).2.1, (movePlayerStep_skeleton dx dy e).2.2⟩

/-- Witness for C10: the player entity, which lacks the `LeftMover` tag, is
untouched by one left-walker run. -/
theorem systems_frame_effects_witness :
    (LeftWalker.run [sample_player])[0]? = some sample_player :=
  systems_frame_effects.1 [sample_player] 0 sample_player rfl rfl

/-- C8: from the initial configuration built in `main`, one tick with no key
captured leaves the player at (40, 25) and moves each of the ten movers one
cell left, the one that was at x = 0 wrapping to x = 79. -/
theorem tick_no_key_initial_world :
    (tick none initial_world).map Entity.position =
      [some { x := 40, y := 25 }, some { x := 79, y := 20 }, some { x := 6, y := 20 },
       some { x := 13, y := 20 }, some { x := 20, y := 20 }, some { x := 27, y := 20 },
       some { x := 34, y := 20 }, some { x := 41, y := 20 }, some { x := 48, y := 20 },
       some { x := 55, y := 20 }, some { x := 62, y := 20 }] := by
  decide
